import Mathlib

/-!
# Verification of fb0rfb.c — minimal framebuffer-to-RFB (VNC) server

A shallow embedding of the protocol engine of `src/fb0rfb.c`:

* the reliable byte-channel primitives `write_all` / `read_all`
  (fb0rfb.c lines 79-116), modelled over explicit traces of raw
  `read(2)` / `write(2)` outcomes;
* the RFB 3.8 handshake sequence (lines 259-345), modelled over a pure
  client byte stream where a short read is represented by the stream
  not holding enough bytes (the C `read_all` fails exactly then, since
  the model equates short read with end-of-stream);
* the per-tick client-message / frame-pump loop (lines 375-541),
  with the session state (`client_ready`, pending client bytes) made
  explicit and the outcome of `select` / the bare `read` of the
  message-type byte supplied as an oracle per tick;
* the scanline copy of the framebuffer (lines 531-537) as a pure
  function of the mapped framebuffer bytes and the geometry.

Bytes are `Nat` (values < 256 in practice; nothing below depends on the
bound).  Multi-byte wire integers are big-endian, as in the C code
(`htons` / `htonl`).
-/

/-- Big-endian 2-byte encoding of a 16-bit value (C: `htons` then 2 raw bytes). -/
def be16 (n : Nat) : List Nat := [n / 256 % 256, n % 256]

/-- Big-endian 4-byte encoding of a 32-bit value (C: `htonl` then 4 raw bytes). -/
def be32 (n : Nat) : List Nat :=
  [n / 2 ^ 24 % 256, n / 2 ^ 16 % 256, n / 256 % 256, n % 256]

/-- Value of a big-endian byte list (used for `ntohs` / `ntohl` of read payloads). -/
def beVal (bs : List Nat) : Nat := bs.foldl (fun a b => a * 256 + b) 0

/-- `read_all` over a pure client byte stream: read exactly `n` bytes or fail.
In this stream model a failure of the C `read_all` (end-of-stream / error while
bytes remain to be read) is represented by the stream holding fewer than `n`
bytes; on failure the C code has consumed whatever bytes remained. -/
def takeBytes (n : Nat) (s : List Nat) : Option (List Nat × List Nat) :=
  if n ≤ s.length then some (s.take n, s.drop n) else none

/-! ## CLI frame-rate clamp (fb0rfb.c lines 134, 153-154, 540) -/

/-- The fps bound enforcement: `if (fps < 1) fps = 1; if (fps > 15) fps = 15;`. -/
def clampFps (fps : Int) : Int :=
  let f := if fps < 1 then 1 else fps
  if f > 15 then 15 else f

/-- The per-frame pacing argument, `msleep(1000 / fps)` after clamping
(fb0rfb.c line 540); C `int` division of positives agrees with `Int` division. -/
def frameSleepMs (fps : Int) : Int := 1000 / clampFps fps

/-! ## RFB handshake (fb0rfb.c lines 259-345) -/

/-- The 12-byte protocol version string `"RFB 003.008\n"` (line 260). -/
def rfbVersion : List Nat := "RFB 003.008\n".toList.map Char.toNat

/-- The security offer `uint8_t sec_types[2] = { 1, 1 }` (line 274). -/
def secTypes : List Nat := [1, 1]

/-- The 4-byte SecurityResult `htonl(0)` (lines 283-284). -/
def secResult : List Nat := [0, 0, 0, 0]

/-- The 16-byte packed PixelFormat block as initialised at lines 323-333:
bpp=32, depth=24, big_endian=0, true_color=1, max=255 per channel (big-endian
u16s), shifts R=16 G=8 B=0, 3 padding bytes (zeroed by `memset`). -/
def pixelFormatBytes : List Nat :=
  [32, 24, 0, 1] ++ be16 255 ++ be16 255 ++ be16 255 ++ [16, 8, 0] ++ [0, 0, 0]

/-- The desktop name `"OpenCentauri fb0 (RAW)"` (line 335). -/
def serverName : List Nat := "OpenCentauri fb0 (RAW)".toList.map Char.toNat

/-- ServerInit: width u16, height u16, PixelFormat, name length u32, name
(lines 298-342). -/
def serverInit (width height : Nat) : List Nat :=
  be16 width ++ be16 height ++ pixelFormatBytes ++ be32 serverName.length ++ serverName

/-- Result of running the handshake: `ok out rest` (all seven steps done,
`out` the bytes written, `rest` the unread client bytes) or `abort out`
(the C code runs `close(c); continue;`, having written `out`). -/
inductive HandshakeResult
  | ok (out : List Nat) (rest : List Nat)
  | abort (out : List Nat)
  deriving DecidableEq, Repr

/-- The handshake of fb0rfb.c lines 259-345 over the client byte stream.
Server writes are modelled as succeeding (a failed `write_all` closes the
connection; every claim below is conditional on the handshake completing or
concerns the bytes written before an abort on the read side).  Steps:
write version; read 12 bytes (content ignored); write the security offer;
read the 1-byte choice, aborting unless it is 1; write SecurityResult; read
the 1-byte shared flag (ignored); write ServerInit. -/
def handshake (width height : Nat) (input : List Nat) : HandshakeResult :=
  match takeBytes 12 input with
  | none => .abort rfbVersion
  | some (_, r1) =>
    match takeBytes 1 r1 with
    | none => .abort (rfbVersion ++ secTypes)
    | some (chosen, r2) =>
      if chosen ≠ [1] then .abort (rfbVersion ++ secTypes)
      else
        match takeBytes 1 r2 with
        | none => .abort (rfbVersion ++ secTypes ++ secResult)
        | some (_, r3) =>
          .ok (rfbVersion ++ secTypes ++ secResult ++ serverInit width height) r3

/-! ### Sanity checks on the handshake model -/

example : rfbVersion.length = 12 := by decide
example : pixelFormatBytes.length = 16 := by decide
example : serverName.length = 22 := by decide
example :
    handshake 480 544 (List.replicate 12 0 ++ [1, 0]) =
      .ok (rfbVersion ++ secTypes ++ secResult ++ serverInit 480 544) [] := by
  decide
example :
    handshake 480 544 (List.replicate 12 0 ++ [2, 0]) =
      .abort (rfbVersion ++ secTypes) := by decide

/-! ## Client message processing (fb0rfb.c lines 395-472) -/

/-- The SetEncodings drain loop (lines 418-422): read `count` 4-byte encoding
values; if a `read_all` fails mid-list the code sets `count = 0` and breaks the
inner loop only — the session continues.  `read_all` has consumed whatever
bytes remained before failing, so the stream is advanced by up to 4 bytes. -/
def drainEncodings : Nat → List Nat → List Nat
  | 0, input => input
  | k + 1, input =>
    match takeBytes 4 input with
    | none => input.drop 4
    | some (_, rest) => drainEncodings k rest

/-- The ClientCutText drain loop (lines 463-468): consume `len` text bytes in
chunks of at most 256; on a failed `read_all` the code sets `len = 0` and
breaks the inner loop only — the session continues. -/
def drainCutText : Nat → List Nat → List Nat
  | 0, input => input
  | len + 1, input =>
    match takeBytes (min (len + 1) 256) input with
    | none => input.drop (min (len + 1) 256)
    | some (_, rest) => drainCutText (len + 1 - min (len + 1) 256) rest
termination_by len _ => len
decreasing_by simp

/-- Dispatch on one client message-type byte `t`, consuming its payload from
`input` with the readiness flag `ready` in scope (fb0rfb.c lines 401-472).
`none` models `break` out of the session loop (disconnect); `some (r, rest)`
is the updated `client_ready` flag and remaining stream.  Per the C code:
  * 0 SetPixelFormat: 19 payload bytes, discarded;
  * 2 SetEncodings: 1 pad + 2-byte big-endian count, then the drain loop;
  * 3 FramebufferUpdateRequest: 1 + 2+2+2+2 bytes, discarded, sets ready;
  * 4 KeyEvent: 7 bytes; 5 PointerEvent: 5 bytes;
  * 6 ClientCutText: 3 pad + 4-byte big-endian length, then the drain loop;
  * anything else: disconnect. -/
def processMsg (t : Nat) (input : List Nat) (ready : Bool) :
    Option (Bool × List Nat) :=
  if t = 0 then
    match takeBytes 19 input with
    | none => none
    | some (_, rest) => some (ready, rest)
  else if t = 2 then
    match takeBytes 1 input with
    | none => none
    | some (_, r1) =>
      match takeBytes 2 r1 with
      | none => none
      | some (cnt, r2) => some (ready, drainEncodings (beVal cnt) r2)
  else if t = 3 then
    match takeBytes 1 input with
    | none => none
    | some (_, r1) =>
      match takeBytes 2 r1, takeBytes 2 (r1.drop 2), takeBytes 2 (r1.drop 4),
          takeBytes 2 (r1.drop 6) with
      | some _, some _, some _, some (_, rest) => some (true, rest)
      | _, _, _, _ => none
  else if t = 4 then
    match takeBytes 7 input with
    | none => none
    | some (_, rest) => some (ready, rest)
  else if t = 5 then
    match takeBytes 5 input with
    | none => none
    | some (_, rest) => some (ready, rest)
  else if t = 6 then
    match takeBytes 3 input with
    | none => none
    | some (_, r1) =>
      match takeBytes 4 r1 with
      | none => none
      | some (lenB, r2) => some (ready, drainCutText (beVal lenB) r2)
  else none

/-! ## Framebuffer scanline copy (fb0rfb.c lines 531-537) -/

/-- One transmitted scanline: `memcpy(linebuf, fbmem + y*stride, width*4)`
(line 532) — the `width*4` bytes starting at offset `y*stride` of the mapped
framebuffer. -/
def lineBytes (fbmem : List Nat) (stride width y : Nat) : List Nat :=
  (fbmem.drop (y * stride)).take (width * 4)

/-- The pixel payload of one full-frame update: scanlines `0..height-1` in
order (the `for (int y = 0; y < height; y++)` loop at line 531). -/
def framePayload (fbmem : List Nat) (stride width height : Nat) : List Nat :=
  (List.range height).flatMap (lineBytes fbmem stride width)

/-! ## One tick of the session loop (fb0rfb.c lines 375-541) -/

/-- The bytes of one complete FramebufferUpdate message on the success path
(lines 496-537): type 0, pad 0, rectangle count 1 (u16), then the rectangle
header x=0, y=0, width, height (u16 each), RAW encoding (u32 0), then the
pixel payload. -/
def frameUpdateBytes (fbmem : List Nat) (width height stride : Nat) : List Nat :=
  [0, 0] ++ be16 1 ++ be16 0 ++ be16 0 ++ be16 width ++ be16 height ++ be32 0 ++
    framePayload fbmem stride width height

/-- Outcome of the single bare `read(c, &msgtype, 1)` at line 399 (deliberately
not `read_all`): it returned exactly 1 byte, or 0 (peer closed), or -1 with
`errno == EINTR`, or -1 with another errno. -/
inductive ReadOutcome
  | gotByte
  | eof
  | eintr
  | err
  deriving DecidableEq, Repr

/-- What this tick's `select` with zero timeout (lines 376-382) reported:
an error other than EINTR (`break`), nothing readable (EINTR included, since
`r < 0 && errno == EINTR` just falls through like a timeout), or readable —
in which case the bare read of the message-type byte has some outcome. -/
inductive TickEvent
  | selectError
  | noData
  | dataReady (o : ReadOutcome)
  deriving DecidableEq, Repr

/-- Per-session mutable state: `client_ready` (line 364, initially 0) and the
pending client byte stream. -/
structure Session where
  ready : Bool
  input : List Nat
  deriving DecidableEq, Repr

/-- Session state at line 364: `int client_ready = 0;` with the client's
(future) bytes. -/
def initSession (input : List Nat) : Session := ⟨false, input⟩

/-- Result of one tick: `disc out` models `break` out of the session loop
(then `free`/`close`), having written `out` this tick; `next s out slept`
continues the loop with state `s`, having written `out` and slept `slept`
milliseconds. -/
inductive StepResult
  | disc (out : List Nat)
  | next (s : Session) (out : List Nat) (slept : Nat)
  deriving DecidableEq, Repr

/-- The tail of a tick after the message poll (fb0rfb.c lines 479-540): if
`client_ready` is still 0, `msleep(50)` and continue with no bytes written;
otherwise write one full FramebufferUpdate and `msleep(1000 / fps)`.  Server
writes are modelled as succeeding here; write failures are treated by
`frameSend` below. -/
def tickTail (fbmem : List Nat) (width height stride fps : Nat) (s : Session) :
    StepResult :=
  if s.ready then
    .next s (frameUpdateBytes fbmem width height stride) (1000 / fps)
  else
    .next s [] 50

/-- One iteration of the `for (;;)` session loop (lines 375-541), driven by
the tick's `select`/`read` oracle `ev`.  On `dataReady .gotByte` the type byte
is the head of the pending stream (a readable socket with an empty stream
means the peer closed: `read` returns 0, i.e. `.eof`). -/
def tick (fbmem : List Nat) (width height stride fps : Nat) (ev : TickEvent)
    (s : Session) : StepResult :=
  match ev with
  | .selectError => .disc []
  | .noData => tickTail fbmem width height stride fps s
  | .dataReady o =>
    match o with
    | .gotByte =>
      match s.input with
      | [] => .disc []
      | t :: rest =>
        match processMsg t rest s.ready with
        | none => .disc []
        | some (r, rest') => tickTail fbmem width height stride fps ⟨r, rest'⟩
    | _ => .disc []

/-- A run of the session loop over a list of tick events, accumulating the
bytes written; stops early on disconnect (`none` final state). -/
def runTicks (fbmem : List Nat) (width height stride fps : Nat) :
    List TickEvent → Session → List Nat × Option Session
  | [], s => ([], some s)
  | ev :: evs, s =>
    match tick fbmem width height stride fps ev s with
    | .disc out => (out, none)
    | .next s' out _ =>
      let (out2, r) := runTicks fbmem width height stride fps evs s'
      (out ++ out2, r)

/-! ### Sanity checks on the session model -/

example :
    tick [] 4 4 16 3 (.dataReady .gotByte) (initSession [3, 0, 0, 0, 0, 0, 0, 0, 0, 0]) =
      .next ⟨true, []⟩ (frameUpdateBytes [] 4 4 16) 333 := by decide
example :
    tick [] 4 4 16 3 (.dataReady .gotByte) (initSession [99]) = .disc [] := by decide
example :
    tick [] 4 4 16 3 (.dataReady .gotByte) (initSession [2, 0, 0, 1]) =
      .next ⟨false, []⟩ [] 50 := by decide

/-! ## Reliable byte channel: write_all / read_all (fb0rfb.c lines 79-116)

These are modelled over explicit traces of raw syscall outcomes, one trace
entry per `write(2)` / `read(2)` call. -/

/-- Outcome of one raw `write(2)` call: -1 with `errno == EINTR`; -1 with
another errno; or `n` bytes written (POSIX guarantees `n` at most the
requested count, hence the `min` in `write_all` below; `n = 0` is the
zero-progress case). -/
inductive WrEvent
  | eintr
  | err
  | ok (n : Nat)
  deriving DecidableEq, Repr

/-- `write_all(fd, buf, len)` of fb0rfb.c lines 79-92 over a trace of raw
write outcomes: loop while `len` remains; retry on EINTR; fail on error or on
a zero-byte write; otherwise advance by the bytes written.  Returns the total
bytes transferred on success (`some`), which the theorems show equals the
request; `none` models the C return of -1 (the caller sees no partial count).
An exhausted trace with bytes still owed is also a failure (a finite trace
only models finitely many calls). -/
def write_all : List WrEvent → Nat → Option Nat
  | _, 0 => some 0
  | [], _ + 1 => none
  | .eintr :: evs, len + 1 => write_all evs (len + 1)
  | .err :: _, _ + 1 => none
  | .ok n :: evs, len + 1 =>
    if n = 0 then none
    else
      match write_all evs (len + 1 - min n (len + 1)) with
      | some m => some (min n (len + 1) + m)
      | none => none

/-- Outcome of one raw `read(2)` call: EINTR; another error; or a chunk of
bytes (the empty chunk is `read` returning 0: peer closed the connection). -/
inductive RdEvent
  | eintr
  | err
  | chunk (data : List Nat)
  deriving DecidableEq, Repr

/-- `read_all(fd, buf, len)` of fb0rfb.c lines 103-116 over a trace of raw
read outcomes: loop while `len` remains; retry on EINTR; fail on error or on
end-of-stream (`n == 0`); otherwise append the chunk (capped at the requested
count, as POSIX guarantees) and continue.  Returns the full requested bytes on
success; `none` models the C return of -1 (no partial bytes are exposed). -/
def read_all : List RdEvent → Nat → Option (List Nat)
  | _, 0 => some []
  | [], _ + 1 => none
  | .eintr :: evs, len + 1 => read_all evs (len + 1)
  | .err :: _, _ + 1 => none
  | .chunk d :: evs, len + 1 =>
    if d.isEmpty then none
    else
      match read_all evs (len + 1 - (d.take (len + 1)).length) with
      | some rest => some (d.take (len + 1) ++ rest)
      | none => none

example : write_all [.eintr, .ok 2, .ok 3] 5 = some 5 := by decide
example : write_all [.ok 2, .ok 0] 5 = none := by decide
example : read_all [.eintr, .chunk [1, 2], .chunk [3]] 3 = some [1, 2, 3] := by decide
example : read_all [.chunk [1, 2], .chunk []] 3 = none := by decide

/-! ## Frame transmission with write failures (fb0rfb.c lines 496-541) -/

/-- How the frame-transmission part of a tick ended: `brk` is a `break` out of
the session loop (teardown follows); `sleep ms` means control reached the
`msleep(1000 / fps)` frame-pacing call at line 540 and the session loop
continues with the next tick. -/
inductive FrameOutcome
  | brk
  | sleep (ms : Nat)
  deriving DecidableEq, Repr

/-- The scanline loop of lines 531-537 with a per-line write-success oracle:
for `y` from `0` while `y < height`, write line `y`; on a failed `write_all`
the code sets `y = height` and breaks (exiting this loop only).  Returns the
number of scanlines fully written.  `rem` is the number of lines still to
send, so the line index is `y` and `rem = height - y` at entry. -/
def scanLines (lineOk : Nat → Bool) : Nat → Nat → Nat
  | _, 0 => 0
  | y, rem + 1 => if lineOk y then scanLines lineOk (y + 1) rem + 1 else 0

/-- The frame-transmission section of one tick (lines 496-541), with oracles
for the success of the update-header write (line 503), the rectangle-header
writes (lines 511-515), and each scanline write (line 533).  A failed header
write is `break` out of the session loop; a failed scanline write only exits
the scanline loop, after which control falls through to `msleep(1000 / fps)`
and the session loop continues. -/
def frameSend (height fps : Nat) (hdrOk rectOk : Bool) (lineOk : Nat → Bool) :
    Nat × FrameOutcome :=
  if !hdrOk then (0, .brk)
  else if !rectOk then (0, .brk)
  else (scanLines lineOk 0 height, .sleep (1000 / fps))

example : frameSend 2 3 true true (fun _ => false) = (0, .sleep 333) := by decide
example : frameSend 2 3 true true (fun y => y = 0) = (1, .sleep 333) := by decide
example : frameSend 2 3 false true (fun _ => true) = (0, .brk) := by decide

/-! ## Helper lemmas -/

theorem takeBytes_of_le {n : Nat} {s : List Nat} (h : n ≤ s.length) :
    takeBytes n s = some (s.take n, s.drop n) := by
  simp [takeBytes, h]

theorem takeBytes_of_lt {n : Nat} {s : List Nat} (h : s.length < n) :
    takeBytes n s = none := by
  simp [takeBytes]; omega

/-- Characterization of the SetPixelFormat branch (fb0rfb.c lines 401-404). -/
theorem processMsg_zero (input : List Nat) (r : Bool) :
    processMsg 0 input r =
      if 19 ≤ input.length then some (r, input.drop 19) else none := by
  unfold processMsg
  by_cases h : 19 ≤ input.length
  · simp only [takeBytes_of_le h]
    simp [h]
  · rw [takeBytes_of_lt (show input.length < 19 by omega)]
    simp [h]

/-- Characterization of the SetEncodings branch (fb0rfb.c lines 405-422): the
header (pad + count) must be fully read or the session disconnects, after
which the encoding list is drained without any possibility of disconnect. -/
theorem processMsg_two (input : List Nat) (r : Bool) :
    processMsg 2 input r =
      if 3 ≤ input.length then
        some (r, drainEncodings (beVal ((input.drop 1).take 2)) (input.drop 3))
      else none := by
  unfold processMsg
  by_cases h1 : 1 ≤ input.length
  · simp only [takeBytes_of_le h1]
    by_cases h2 : 3 ≤ input.length
    · simp only [takeBytes_of_le
        (show 2 ≤ (input.drop 1).length by simp only [List.length_drop]; omega)]
      simp only [List.drop_drop]
      simp [h2]
    · rw [takeBytes_of_lt
        (show (input.drop 1).length < 2 by simp only [List.length_drop]; omega)]
      simp [h2]
  · rw [takeBytes_of_lt (show input.length < 1 by omega)]
    simp [show ¬ 3 ≤ input.length by omega]

/-- Characterization of the FramebufferUpdateRequest branch (fb0rfb.c lines
423-441): the whole 9-byte payload must be present, and then `client_ready`
is set regardless of the incremental flag and rectangle fields. -/
theorem processMsg_three (input : List Nat) (r : Bool) :
    processMsg 3 input r =
      if 9 ≤ input.length then some (true, input.drop 9) else none := by
  unfold processMsg
  by_cases h1 : 1 ≤ input.length
  · simp only [takeBytes_of_le h1]
    by_cases h3 : 3 ≤ input.length
    · simp only [takeBytes_of_le
        (show 2 ≤ (input.drop 1).length by simp only [List.length_drop]; omega)]
      by_cases h5 : 5 ≤ input.length
      · simp only [takeBytes_of_le
          (show 2 ≤ ((input.drop 1).drop 2).length by simp only [List.length_drop]; omega)]
        by_cases h7 : 7 ≤ input.length
        · simp only [takeBytes_of_le
            (show 2 ≤ ((input.drop 1).drop 4).length by simp only [List.length_drop]; omega)]
          by_cases h9 : 9 ≤ input.length
          · simp only [takeBytes_of_le
              (show 2 ≤ ((input.drop 1).drop 6).length by simp only [List.length_drop]; omega)]
            simp only [List.drop_drop]
            simp [h9]
          · rw [takeBytes_of_lt
              (show ((input.drop 1).drop 6).length < 2 by simp only [List.length_drop]; omega)]
            simp [h9]
        · rw [takeBytes_of_lt
            (show ((input.drop 1).drop 4).length < 2 by simp only [List.length_drop]; omega)]
          simp [show ¬ 9 ≤ input.length by omega]
      · rw [takeBytes_of_lt
          (show ((input.drop 1).drop 2).length < 2 by simp only [List.length_drop]; omega)]
        simp [show ¬ 9 ≤ input.length by omega]
    · rw [takeBytes_of_lt
        (show (input.drop 1).length < 2 by simp only [List.length_drop]; omega)]
      simp [show ¬ 9 ≤ input.length by omega]
  · rw [takeBytes_of_lt (show input.length < 1 by omega)]
    simp [show ¬ 9 ≤ input.length by omega]

/-- Characterization of the KeyEvent branch (fb0rfb.c lines 442-445). -/
theorem processMsg_four (input : List Nat) (r : Bool) :
    processMsg 4 input r =
      if 7 ≤ input.length then some (r, input.drop 7) else none := by
  unfold processMsg
  by_cases h : 7 ≤ input.length
  · simp only [takeBytes_of_le h]
    simp [h]
  · rw [takeBytes_of_lt (show input.length < 7 by omega)]
    simp [h]

/-- Characterization of the PointerEvent branch (fb0rfb.c lines 446-449). -/
theorem processMsg_five (input : List Nat) (r : Bool) :
    processMsg 5 input r =
      if 5 ≤ input.length then some (r, input.drop 5) else none := by
  unfold processMsg
  by_cases h : 5 ≤ input.length
  · simp only [takeBytes_of_le h]
    simp [h]
  · rw [takeBytes_of_lt (show input.length < 5 by omega)]
    simp [h]

/-- Characterization of the ClientCutText branch (fb0rfb.c lines 450-468): the
header (3 pad + 4-byte length) must be fully read or the session disconnects,
after which the text body is drained without any possibility of disconnect. -/
theorem processMsg_six (input : List Nat) (r : Bool) :
    processMsg 6 input r =
      if 7 ≤ input.length then
        some (r, drainCutText (beVal ((input.drop 3).take 4)) (input.drop 7))
      else none := by
  unfold processMsg
  by_cases h3 : 3 ≤ input.length
  · simp only [takeBytes_of_le h3]
    by_cases h7 : 7 ≤ input.length
    · simp only [takeBytes_of_le
        (show 4 ≤ (input.drop 3).length by simp only [List.length_drop]; omega)]
      simp only [List.drop_drop]
      simp [h7]
    · rw [takeBytes_of_lt
        (show (input.drop 3).length < 4 by simp only [List.length_drop]; omega)]
      simp [h7]
  · rw [takeBytes_of_lt (show input.length < 3 by omega)]
    simp [show ¬ 7 ≤ input.length by omega]

/-- A message-type byte outside {0,2,3,4,5,6} hits the final `else` at
fb0rfb.c lines 469-472: `break`, i.e. disconnect. -/
theorem processMsg_unknown (t : Nat) (input : List Nat) (r : Bool)
    (h0 : t ≠ 0) (h2 : t ≠ 2) (h3 : t ≠ 3) (h4 : t ≠ 4) (h5 : t ≠ 5) (h6 : t ≠ 6) :
    processMsg t input r = none := by
  simp [processMsg, h0, h2, h3, h4, h5, h6]

/-- No branch of the message processor ever clears `client_ready`: with the
flag already set, any successfully processed message leaves it set. -/
theorem processMsg_ready_of_true (t : Nat) (input rest : List Nat) (r : Bool)
    (h : processMsg t input true = some (r, rest)) : r = true := by
  rcases eq_or_ne t 0 with rfl | h0
  · rw [processMsg_zero] at h; split at h <;> simp_all
  rcases eq_or_ne t 2 with rfl | h2
  · rw [processMsg_two] at h; split at h <;> simp_all
  rcases eq_or_ne t 3 with rfl | h3
  · rw [processMsg_three] at h; split at h <;> simp_all
  rcases eq_or_ne t 4 with rfl | h4
  · rw [processMsg_four] at h; split at h <;> simp_all
  rcases eq_or_ne t 5 with rfl | h5
  · rw [processMsg_five] at h; split at h <;> simp_all
  rcases eq_or_ne t 6 with rfl | h6
  · rw [processMsg_six] at h; split at h <;> simp_all
  rw [processMsg_unknown t input true h0 h2 h3 h4 h5 h6] at h
  cases h

/-- A tick that breaks out of the session loop writes nothing in that tick:
every `break` in fb0rfb.c lines 375-541 occurs before any bytes of a frame
are sent (frame bytes are only produced past the ready check). -/
theorem tick_disc_out (fbmem : List Nat) (width height stride fps : Nat)
    (ev : TickEvent) (s : Session) (out : List Nat)
    (h : tick fbmem width height stride fps ev s = .disc out) : out = [] := by
  rcases ev with _ | _ | o
  · simp only [tick] at h
    cases h; rfl
  · simp only [tick, tickTail] at h
    split at h <;> cases h
  · rcases o with _ | _ | _ | _
    · simp only [tick] at h
      rcases hi : s.input with _ | ⟨t, rest⟩ <;> simp only [hi] at h
      · cases h; rfl
      · rcases hp : processMsg t rest s.ready with _ | ⟨r, rest2⟩ <;> simp only [hp] at h
        · cases h; rfl
        · simp only [tickTail] at h
          split at h <;> cases h
    · simp only [tick] at h; cases h; rfl
    · simp only [tick] at h; cases h; rfl
    · simp only [tick] at h; cases h; rfl

/-- A tick that continues the session loop either wrote nothing and slept the
50 ms not-ready interval, or wrote exactly one full FramebufferUpdate and
slept the frame-pacing interval — depending on the updated ready flag
(fb0rfb.c lines 479-540). -/
theorem tick_next_out (fbmem : List Nat) (width height stride fps : Nat)
    (ev : TickEvent) (s s' : Session) (out : List Nat) (slept : Nat)
    (h : tick fbmem width height stride fps ev s = .next s' out slept) :
    (s'.ready = true ∧ out = frameUpdateBytes fbmem width height stride ∧
      slept = 1000 / fps) ∨
    (s'.ready = false ∧ out = [] ∧ slept = 50) := by
  rcases ev with _ | _ | o
  · simp only [tick] at h
    cases h
  · simp only [tick, tickTail] at h
    split at h
    · cases h; left; simp_all
    · cases h; right; simp_all
  · rcases o with _ | _ | _ | _
    · simp only [tick] at h
      rcases hi : s.input with _ | ⟨t, rest⟩ <;> simp only [hi] at h
      · cases h
      · rcases hp : processMsg t rest s.ready with _ | ⟨r, rest2⟩ <;> simp only [hp] at h
        · cases h
        · simp only [tickTail] at h
          split at h
          · cases h; left; simp_all
          · cases h; right; simp_all
    · simp only [tick] at h; cases h
    · simp only [tick] at h; cases h
    · simp only [tick] at h; cases h

/-- Once `client_ready` is set, no tick clears it (fb0rfb.c: `client_ready`
is only ever assigned 1, at line 441). -/
theorem tick_ready_mono (fbmem : List Nat) (width height stride fps : Nat)
    (ev : TickEvent) (s s' : Session) (out : List Nat) (slept : Nat)
    (h : tick fbmem width height stride fps ev s = .next s' out slept)
    (hr : s.ready = true) : s'.ready = true := by
  rcases ev with _ | _ | o
  · simp only [tick] at h
    cases h
  · simp only [tick, tickTail] at h
    split at h <;> (cases h; exact hr)
  · rcases o with _ | _ | _ | _
    · simp only [tick] at h
      rcases hi : s.input with _ | ⟨t, rest⟩ <;> simp only [hi] at h
      · cases h
      · rcases hp : processMsg t rest s.ready with _ | ⟨r, rest2⟩ <;> simp only [hp] at h
        · cases h
        · rw [hr] at hp
          have hrt := processMsg_ready_of_true t rest rest2 r hp
          simp only [tickTail] at h
          split at h <;> (cases h; exact hrt)
    · simp only [tick] at h; cases h
    · simp only [tick] at h; cases h
    · simp only [tick] at h; cases h

/-- Over a whole run of ticks, `client_ready` never reverts. -/
theorem runTicks_ready_mono (fbmem : List Nat) (width height stride fps : Nat) :
    ∀ (evs : List TickEvent) (s s' : Session) (out : List Nat),
      runTicks fbmem width height stride fps evs s = (out, some s') →
      s.ready = true → s'.ready = true := by
  intro evs
  induction evs with
  | nil =>
    intro s s' out h hr
    simp only [runTicks] at h
    cases h
    exact hr
  | cons ev evs ih =>
    intro s s' out h hr
    simp only [runTicks] at h
    rcases ht : tick fbmem width height stride fps ev s with _ | ⟨s1, out1, slept⟩ <;>
      simp only [ht] at h
    · cases h
    · rcases hrun : runTicks fbmem width height stride fps evs s1 with ⟨out2, r2⟩
      rw [hrun] at h
      injection h with h1 h2
      simp only [Prod.snd] at h2
      rw [h2] at hrun
      exact ih s1 s' out2 hrun (tick_ready_mono _ _ _ _ _ _ _ _ _ _ ht hr)

/-- The scanline loop sends exactly the consecutive run of successfully
written lines: if lines `y, y+1, ..., y+m-1` succeed and line `y+m` fails
within the remaining budget, exactly `m` lines go out. -/
theorem scanLines_eq (lineOk : Nat → Bool) :
    ∀ (m y rem : Nat), m < rem → (∀ j, j < m → lineOk (y + j) = true) →
      lineOk (y + m) = false → scanLines lineOk y rem = m := by
  intro m
  induction m with
  | zero =>
    intro y rem hrem _ hfail
    rcases rem with _ | rem
    · omega
    · simpa [scanLines] using hfail
  | succ n ih =>
    intro y rem hrem hok hfail
    rcases rem with _ | rem
    · omega
    · have h0 : lineOk y = true := by simpa using hok 0 (by omega)
      have : scanLines lineOk (y + 1) rem = n := by
        refine ih (y + 1) rem (by omega) (fun j hj => ?_) ?_
        · have := hok (j + 1) (by omega)
          simpa [Nat.add_assoc, Nat.add_comm 1 j] using this
        · simpa [Nat.add_assoc, Nat.add_comm 1 n] using hfail
      simp [scanLines, h0, this]

/-- If every line write succeeds, all `height` scanlines are sent. -/
theorem scanLines_all (lineOk : Nat → Bool) (hok : ∀ j, lineOk j = true) :
    ∀ (rem y : Nat), scanLines lineOk y rem = rem := by
  intro rem
  induction rem with
  | zero => intro y; rfl
  | succ n ih => intro y; simp [scanLines, hok y, ih (y + 1)]

/-- Length of a slice fully inside a list. -/
theorem length_take_drop {α : Type} (l : List α) (a b : Nat) (h : a + b ≤ l.length) :
    ((l.drop a).take b).length = b := by
  simp only [List.length_take, List.length_drop]
  omega

/-- A scanline's byte range lies inside the mapped framebuffer:
`y*stride + width*4 ≤ stride*height ≤ fbmem.length` for `y < height`. -/
theorem row_bound (stride width height y len : Nat) (hs : width * 4 ≤ stride)
    (hmem : stride * height ≤ len) (hy : y < height) :
    y * stride + width * 4 ≤ len :=
  calc y * stride + width * 4
      ≤ y * stride + stride := Nat.add_le_add_left hs _
    _ = (y + 1) * stride := (Nat.succ_mul y stride).symm
    _ ≤ height * stride := Nat.mul_le_mul_right stride hy
    _ = stride * height := Nat.mul_comm height stride
    _ ≤ len := hmem

/-- Total pixel bytes of one frame: `height` scanlines of `width*4` bytes. -/
theorem framePayload_length (fbmem : List Nat) (stride width : Nat)
    (hs : width * 4 ≤ stride) :
    ∀ height, stride * height ≤ fbmem.length →
      (framePayload fbmem stride width height).length = height * (width * 4) := by
  intro height
  induction height with
  | zero => intro _; simp [framePayload]
  | succ n ih =>
    intro hmem
    have hn : stride * n ≤ fbmem.length :=
      le_trans (Nat.mul_le_mul_left stride (Nat.le_succ n)) hmem
    have hline : (lineBytes fbmem stride width n).length = width * 4 := by
      unfold lineBytes
      exact length_take_drop _ _ _
        (row_bound stride width (n + 1) n _ hs hmem (Nat.lt_succ_self n))
    have hprev : (List.range n).flatMap (lineBytes fbmem stride width) =
        framePayload fbmem stride width n := rfl
    unfold framePayload
    rw [List.range_succ, List.flatMap_append, List.length_append, hprev, ih hn]
    simp [hline, Nat.succ_mul]

/-- If the final state of a run still has `client_ready` unset, no bytes at
all were written during the run. -/
theorem runTicks_not_ready_out (fbmem : List Nat) (width height stride fps : Nat) :
    ∀ (evs : List TickEvent) (s s' : Session) (out : List Nat),
      runTicks fbmem width height stride fps evs s = (out, some s') →
      s'.ready = false → out = [] := by
  intro evs
  induction evs with
  | nil =>
    intro s s' out h _
    simp only [runTicks] at h
    injection h with h1 _
    exact h1.symm
  | cons ev evs ih =>
    intro s s' out h hr
    simp only [runTicks] at h
    rcases ht : tick fbmem width height stride fps ev s with ⟨out0⟩ | ⟨s1, out1, slept⟩ <;>
      simp only [ht] at h
    · cases h
    · rcases hrun : runTicks fbmem width height stride fps evs s1 with ⟨out2, r2⟩
      rw [hrun] at h
      injection h with h1 h2
      simp only [Prod.fst] at h1
      simp only [Prod.snd] at h2
      rw [h2] at hrun
      have hout2 : out2 = [] := ih s1 s' out2 hrun hr
      have hs1 : s1.ready = false := by
        rcases hb : s1.ready with _ | _
        · rfl
        · have := runTicks_ready_mono fbmem width height stride fps evs s1 s' out2 hrun hb
          rw [this] at hr
          cases hr
      have hout1 : out1 = [] := by
        rcases tick_next_out _ _ _ _ _ _ _ _ _ _ ht with ⟨h3, _, _⟩ | ⟨_, h4, _⟩
        · rw [hs1] at h3; cases h3
        · exact h4
      rw [← h1, hout1, hout2]
      rfl

/-- On success, write_all has transferred exactly the requested byte count. -/
theorem write_all_length :
    ∀ (evs : List WrEvent) (len m : Nat), write_all evs len = some m → m = len := by
  intro evs
  induction evs with
  | nil =>
    intro len m h
    rcases len with _ | len
    · simp only [write_all] at h
      injection h with h1
      omega
    · simp only [write_all] at h
      cases h
  | cons ev evs ih =>
    intro len m h
    rcases len with _ | len
    · simp only [write_all] at h
      injection h with h1
      omega
    · rcases ev with _ | _ | n
      · simp only [write_all] at h
        exact ih _ _ h
      · simp only [write_all] at h
        cases h
      · simp only [write_all] at h
        split at h
        · cases h
        · rcases hw : write_all evs (len + 1 - min n (len + 1)) with _ | m2 <;>
            simp only [hw] at h
          · cases h
          · injection h with h1
            have hm2 := ih _ _ hw
            omega

/-- On success, read_all returns exactly the requested number of bytes. -/
theorem read_all_length :
    ∀ (evs : List RdEvent) (len : Nat) (bs : List Nat),
      read_all evs len = some bs → bs.length = len := by
  intro evs
  induction evs with
  | nil =>
    intro len bs h
    rcases len with _ | len
    · simp only [read_all] at h
      injection h with h1
      rw [← h1]
      rfl
    · simp only [read_all] at h
      cases h
  | cons ev evs ih =>
    intro len bs h
    rcases len with _ | len
    · simp only [read_all] at h
      injection h with h1
      rw [← h1]
      rfl
    · rcases ev with _ | _ | d
      · simp only [read_all] at h
        exact ih _ _ h
      · simp only [read_all] at h
        cases h
      · simp only [read_all] at h
        split at h
        · cases h
        · rcases hr : read_all evs (len + 1 - (d.take (len + 1)).length) with _ | bs2 <;>
            simp only [hr] at h
          · cases h
          · injection h with h1
            have hlen := ih _ _ hr
            rw [← h1, List.length_append]
            have hle : (d.take (len + 1)).length ≤ len + 1 := by
              simp [List.length_take]
            omega

/-! ## Claims -/

/-- Claim C1: for every connection whose handshake completes, the exact byte
sequence the server writes before any FramebufferUpdate is the 12-byte ASCII
version string, the 2-byte security offer [1,1], the 4-byte big-endian 0
security result, then ServerInit: 2-byte big-endian width, 2-byte big-endian
height, the fixed 16-byte PixelFormat block, a 4-byte big-endian name length
and exactly that many name bytes — independent of frame rate and geometry.
After the handshake, a tick writes either nothing or one whole
FramebufferUpdate, so the handshake bytes are precisely what precedes the
first FramebufferUpdate. -/
theorem C1_handshake_bytes (width height stride fps : Nat)
    (fbmem input out rest : List Nat)
    (h : handshake width height input = .ok out rest) :
    out = rfbVersion ++ secTypes ++ secResult ++
        (be16 width ++ be16 height ++ pixelFormatBytes ++
          be32 serverName.length ++ serverName) ∧
    rfbVersion.length = 12 ∧ secTypes = [1, 1] ∧ secResult.length = 4 ∧
    pixelFormatBytes.length = 16 ∧
    (serverInit width height).length = 2 + 2 + 16 + 4 + serverName.length ∧
    (∀ ev s o, tick fbmem width height stride fps ev s = .disc o → o = []) ∧
    (∀ ev s s' o slept,
      tick fbmem width height stride fps ev s = .next s' o slept →
      o = [] ∨ o = frameUpdateBytes fbmem width height stride) := by
  refine ⟨?_, by decide, rfl, by decide, by decide, ?_, ?_, ?_⟩
  · unfold handshake at h
    split at h
    · cases h
    · split at h
      · cases h
      · split at h
        · cases h
        · split at h
          · cases h
          · cases h
            rfl
  · simp [serverInit, be16, be32, pixelFormatBytes]
    omega
  · intro ev s o hh
    exact tick_disc_out _ _ _ _ _ _ _ _ hh
  · intro ev s s' o slept hh
    rcases tick_next_out _ _ _ _ _ _ _ _ _ _ hh with ⟨_, h2, _⟩ | ⟨_, h2, _⟩
    · right; exact h2
    · left; exact h2

theorem C1_handshake_bytes_witness :
    rfbVersion ++ secTypes ++ secResult ++ serverInit 480 544 =
      rfbVersion ++ secTypes ++ secResult ++
        (be16 480 ++ be16 544 ++ pixelFormatBytes ++
          be32 serverName.length ++ serverName) ∧
    secTypes = [1, 1] :=
  ⟨(C1_handshake_bytes 480 544 1920 3 [] (List.replicate 12 0 ++ [1, 0])
      (rfbVersion ++ secTypes ++ secResult ++ serverInit 480 544) [] (by decide)).1,
   (C1_handshake_bytes 480 544 1920 3 [] (List.replicate 12 0 ++ [1, 0])
      (rfbVersion ++ secTypes ++ secResult ++ serverInit 480 544) [] (by decide)).2.2.1⟩

/-- Claim C2: with `stride ≥ width*4`, each transmitted scanline is exactly
`width*4` bytes taken from source offset `y*stride`; every byte of line `y`
at index `i < width*4` is framebuffer byte `y*stride + i` (so no
stride-padding byte is ever sent), and a full frame's pixel payload is
exactly `height*(width*4)` bytes. -/
theorem C2_scanlines_exact (fbmem : List Nat) (stride width height y : Nat)
    (hs : width * 4 ≤ stride) (hmem : stride * height ≤ fbmem.length)
    (hy : y < height) :
    (lineBytes fbmem stride width y).length = width * 4 ∧
    (∀ i, i < width * 4 →
      (lineBytes fbmem stride width y)[i]? = fbmem[y * stride + i]?) ∧
    (framePayload fbmem stride width height).length = height * (width * 4) := by
  refine ⟨?_, ?_, framePayload_length fbmem stride width hs height hmem⟩
  · exact length_take_drop _ _ _ (row_bound stride width height y _ hs hmem hy)
  · intro i hi
    unfold lineBytes
    rw [List.getElem?_take_of_lt hi, List.getElem?_drop]

theorem C2_scanlines_exact_witness :
    (lineBytes (List.range 16) 8 1 1).length = 1 * 4 ∧
    (framePayload (List.range 16) 8 1 2).length = 2 * (1 * 4) :=
  ⟨(C2_scanlines_exact (List.range 16) 8 1 2 1 (by decide) (by decide) (by decide)).1,
   (C2_scanlines_exact (List.range 16) 8 1 2 1 (by decide) (by decide) (by decide)).2.2⟩

/-- Claim C3 (counterexample): contrary to the claim that every mid-payload
short read disconnects, a short read inside the SetEncodings encoding list
(declared count 1, no list bytes) and one inside the ClientCutText text body
(declared length 5, one body byte) leave the message processor returning a
continuation, and the tick proceeds to the ready check and the sleep instead
of breaking the loop. -/
theorem C3_counterexample :
    processMsg 2 [0, 0, 1] false = some (false, []) ∧
    processMsg 6 [0, 0, 0, 0, 0, 0, 5, 1] false = some (false, []) ∧
    tick [] 4 4 16 3 (.dataReady .gotByte) (initSession [2, 0, 0, 1]) =
      .next ⟨false, []⟩ [] 50 ∧
    tick [] 4 4 16 3 (.dataReady .gotByte) (initSession [6, 0, 0, 0, 0, 0, 0, 5, 1]) =
      .next ⟨false, []⟩ [] 50 := by
  have hd : drainCutText 5 [1] = [] := by
    simp [drainCutText, takeBytes]
  have h6 : processMsg 6 [0, 0, 0, 0, 0, 0, 5, 1] false = some (false, []) := by
    rw [processMsg_six]
    simp [beVal, hd]
  refine ⟨by decide, h6, by decide, ?_⟩
  simp [tick, initSession, tickTail, h6]

/-- Claim C3 (amended): a short read while consuming a payload disconnects
the session for the fixed-size payloads (SetPixelFormat, the whole
FramebufferUpdateRequest body, KeyEvent, PointerEvent) and for the
SetEncodings and ClientCutText headers, but a short read within the
SetEncodings encoding list or the ClientCutText text body only terminates
the drain loop (the C code zeroes the remaining count) and the session
continues. -/
theorem C3_short_read_policy (input : List Nat) (r : Bool) :
    (input.length < 19 → processMsg 0 input r = none) ∧
    (input.length < 3 → processMsg 2 input r = none) ∧
    (input.length < 9 → processMsg 3 input r = none) ∧
    (input.length < 7 → processMsg 4 input r = none) ∧
    (input.length < 5 → processMsg 5 input r = none) ∧
    (input.length < 7 → processMsg 6 input r = none) ∧
    (3 ≤ input.length → processMsg 2 input r ≠ none) ∧
    (7 ≤ input.length → processMsg 6 input r ≠ none) := by
  refine ⟨?_, ?_, ?_, ?_, ?_, ?_, ?_, ?_⟩ <;> intro h
  · rw [processMsg_zero]; simp [show ¬ 19 ≤ input.length by omega]
  · rw [processMsg_two]; simp [show ¬ 3 ≤ input.length by omega]
  · rw [processMsg_three]; simp [show ¬ 9 ≤ input.length by omega]
  · rw [processMsg_four]; simp [show ¬ 7 ≤ input.length by omega]
  · rw [processMsg_five]; simp [show ¬ 5 ≤ input.length by omega]
  · rw [processMsg_six]; simp [show ¬ 7 ≤ input.length by omega]
  · rw [processMsg_two]; simp [h]
  · rw [processMsg_six]; simp [h]

theorem C3_short_read_policy_witness :
    processMsg 0 [1, 2, 3] true = none ∧ processMsg 2 [0, 0, 1] true ≠ none :=
  ⟨(C3_short_read_policy [1, 2, 3] true).1 (by decide),
   (C3_short_read_policy [0, 0, 1] true).2.2.2.2.2.2.1 (by decide)⟩

/-- Claim C4 (counterexample): with two scanlines and the first scanline
write failing, the remaining scanline is indeed not sent (0 lines go out),
but the session is NOT torn down immediately: the tick still reaches the
frame-pacing `msleep(1000/3)` and the session loop continues — contradicting
the claim that no further sleep occurs after the failed write. -/
theorem C4_counterexample :
    frameSend 2 3 true true (fun _ => false) = (0, .sleep 333) ∧
    (frameSend 2 3 true true (fun _ => false)).2 ≠ FrameOutcome.brk := by decide

/-- Claim C4 (amended): a failed scanline write aborts the remaining
scanlines of that frame (exactly the successfully written prefix is sent),
but the session is not torn down at that point: the tick still executes the
frame-pacing sleep and the loop continues; only a failed update-header or
rectangle-header write breaks the session loop during frame transmission
(teardown then happens on a later failing read or write). -/
theorem C4_scanline_failure (height fps k : Nat) (lineOk : Nat → Bool)
    (hk : k < height) (hok : ∀ j, j < k → lineOk j = true)
    (hfail : lineOk k = false) :
    frameSend height fps true true lineOk = (k, .sleep (1000 / fps)) ∧
    frameSend height fps false true lineOk = (0, .brk) ∧
    frameSend height fps true false lineOk = (0, .brk) := by
  have hsc : scanLines lineOk 0 height = k :=
    scanLines_eq lineOk k 0 height hk (by simpa using hok) (by simpa using hfail)
  refine ⟨?_, rfl, rfl⟩
  simp [frameSend, hsc]

theorem C4_scanline_failure_witness :
    frameSend 3 5 true true (fun y => decide (y = 0)) = (1, .sleep 200) ∧
    frameSend 3 5 false true (fun y => decide (y = 0)) = (0, .brk) ∧
    frameSend 3 5 true false (fun y => decide (y = 0)) = (0, .brk) :=
  C4_scanline_failure 3 5 1 (fun y => decide (y = 0)) (by decide)
    (fun j hj => by
      have hj0 : j = 0 := by omega
      subst hj0
      rfl)
    (by rfl)

/-- Claim C5: the readiness flag starts false; processing any complete
FramebufferUpdateRequest sets it true regardless of the incremental flag,
the rectangle fields and the current flag value (so a second request is
idempotent and leaves the state evolution unchanged); no successfully
processed message ever clears it and no tick reverts it. -/
theorem C5_ready_flag (input : List Nat) :
    (initSession input).ready = false ∧
    (∀ r : Bool, 9 ≤ input.length →
      processMsg 3 input r = some (true, input.drop 9)) ∧
    (∀ (t : Nat) (r : Bool) (rest : List Nat),
      processMsg t input true = some (r, rest) → r = true) ∧
    (∀ (fbmem : List Nat) (width height stride fps : Nat) (ev : TickEvent)
        (s s' : Session) (out : List Nat) (slept : Nat),
      tick fbmem width height stride fps ev s = .next s' out slept →
      s.ready = true → s'.ready = true) := by
  refine ⟨rfl, ?_, ?_, ?_⟩
  · intro r h
    rw [processMsg_three]
    simp [h]
  · intro t r rest h
    exact processMsg_ready_of_true t input rest r h
  · intro fbmem w hgt st fp ev s s' out slept h hr
    exact tick_ready_mono _ _ _ _ _ _ _ _ _ _ h hr

theorem C5_ready_flag_witness :
    processMsg 3 [0, 0, 0, 0, 0, 0, 0, 0, 0] false =
      some (true, List.drop 9 [0, 0, 0, 0, 0, 0, 0, 0, 0]) :=
  (C5_ready_flag [0, 0, 0, 0, 0, 0, 0, 0, 0]).2.1 false (by decide)

/-- Claim C6: a security-choice byte other than 1 aborts the handshake with
no bytes written after the 2-byte security offer (a silent teardown; the
accept loop then serves the next connection), and a post-handshake
message-type byte outside {0,2,3,4,5,6} breaks the session loop with no
bytes written in that tick. -/
theorem C6_protocol_violation (width height stride fps : Nat)
    (fbmem cver rest input : List Nat) (chosen t : Nat) (r : Bool)
    (hl : cver.length = 12) (hc : chosen ≠ 1)
    (h0 : t ≠ 0) (h2 : t ≠ 2) (h3 : t ≠ 3) (h4 : t ≠ 4) (h5 : t ≠ 5)
    (h6 : t ≠ 6) :
    handshake width height (cver ++ chosen :: rest) =
      .abort (rfbVersion ++ secTypes) ∧
    tick fbmem width height stride fps (.dataReady .gotByte) ⟨r, t :: input⟩ =
      .disc [] := by
  constructor
  · have hd : (cver ++ chosen :: rest).drop 12 = chosen :: rest := by
      rw [← hl]
      exact List.drop_left cver (chosen :: rest)
    unfold handshake
    rw [takeBytes_of_le
      (show 12 ≤ (cver ++ chosen :: rest).length by
        rw [List.length_append, hl]; omega)]
    simp only [hd]
    rw [takeBytes_of_le (show 1 ≤ (chosen :: rest).length by simp)]
    simp [hc]
  · simp only [tick, processMsg_unknown t input r h0 h2 h3 h4 h5 h6]

theorem C6_protocol_violation_witness :
    handshake 480 544 (List.replicate 12 0 ++ 0 :: []) =
      .abort (rfbVersion ++ secTypes) ∧
    tick [] 480 544 1920 3 (.dataReady .gotByte) ⟨false, [99]⟩ = .disc [] :=
  C6_protocol_violation 480 544 1920 3 [] (List.replicate 12 0) [] [] 0 99 false
    (by decide) (by decide) (by decide) (by decide) (by decide) (by decide)
    (by decide) (by decide)

/-- Claim C7: the command-line frames-per-second value is clamped to [1,15]
(any value ≤ 0 becomes 1, any value > 15 becomes 15, in-range values are
unchanged) and the per-frame sleep parameter is exactly the integer division
1000 / clamped-rate, in milliseconds. -/
theorem C7_fps_clamp (fps : Int) :
    (fps ≤ 0 → clampFps fps = 1) ∧
    (fps > 15 → clampFps fps = 15) ∧
    1 ≤ clampFps fps ∧ clampFps fps ≤ 15 ∧
    (1 ≤ fps → fps ≤ 15 → clampFps fps = fps) ∧
    frameSleepMs fps = 1000 / clampFps fps := by
  refine ⟨?_, ?_, ?_, ?_, ?_, rfl⟩ <;>
    (simp only [clampFps]; split_ifs <;> omega)

theorem C7_fps_clamp_witness :
    clampFps (-3) = 1 ∧ clampFps 99 = 15 ∧ clampFps 3 = 3 :=
  ⟨(C7_fps_clamp (-3)).1 (by decide), (C7_fps_clamp 99).2.1 (by decide),
   (C7_fps_clamp 3).2.2.2.2.1 (by decide) (by decide)⟩

/-- Claim C8: while a session has never processed a FramebufferUpdateRequest
(the ready flag still false), the server sends zero FramebufferUpdate bytes:
a tick that leaves the flag false writes nothing and sleeps the fixed 50 ms
interval (and polls at most one message, by the structure of the loop), a
tick that breaks writes nothing, and an entire run of ticks from the fresh
session whose final flag is still false has written no bytes at all. -/
theorem C8_not_ready_silent (fbmem : List Nat) (width height stride fps : Nat) :
    (∀ ev s s' out slept,
      tick fbmem width height stride fps ev s = .next s' out slept →
      s'.ready = false → out = [] ∧ slept = 50) ∧
    (∀ ev s out, tick fbmem width height stride fps ev s = .disc out →
      out = []) ∧
    (∀ evs input out s',
      runTicks fbmem width height stride fps evs (initSession input) =
        (out, some s') →
      s'.ready = false → out = []) := by
  refine ⟨?_, ?_, ?_⟩
  · intro ev s s' out slept h hr
    rcases tick_next_out _ _ _ _ _ _ _ _ _ _ h with ⟨h1, _, _⟩ | ⟨_, h2, h3⟩
    · rw [hr] at h1; cases h1
    · exact ⟨h2, h3⟩
  · intro ev s out h
    exact tick_disc_out _ _ _ _ _ _ _ _ h
  · intro evs input out s' h hr
    exact runTicks_not_ready_out _ _ _ _ _ evs _ s' out h hr

theorem C8_not_ready_silent_witness :
    runTicks [] 4 4 16 3 [TickEvent.noData, TickEvent.dataReady ReadOutcome.gotByte]
      (initSession [5, 0, 0, 0, 0, 0, 7]) = ([], some ⟨false, [7]⟩) ∧
    ([] : List Nat) = [] :=
  ⟨by decide,
   (C8_not_ready_silent [] 4 4 16 3).2.2
     [TickEvent.noData, TickEvent.dataReady ReadOutcome.gotByte]
     [5, 0, 0, 0, 0, 0, 7] [] ⟨false, [7]⟩ (by decide) rfl⟩

/-- Claim C9: the reliable byte-channel operations are all-or-nothing: both
retry transparently on EINTR; success transfers exactly the requested byte
count; a zero-progress write, a write error, end-of-stream on read, or a
read error fail with no partial result exposed to the caller (the failure
carries no byte count and no bytes). -/
theorem C9_channel_all_or_nothing :
    (∀ (evs : List WrEvent) (len m : Nat), write_all evs len = some m → m = len) ∧
    (∀ (evs : List WrEvent) (len : Nat),
      write_all (WrEvent.eintr :: evs) (len + 1) = write_all evs (len + 1)) ∧
    (∀ (evs : List WrEvent) (len : Nat),
      write_all (WrEvent.ok 0 :: evs) (len + 1) = none) ∧
    (∀ (evs : List WrEvent) (len : Nat),
      write_all (WrEvent.err :: evs) (len + 1) = none) ∧
    (∀ (evs : List RdEvent) (len : Nat) (bs : List Nat),
      read_all evs len = some bs → bs.length = len) ∧
    (∀ (evs : List RdEvent) (len : Nat),
      read_all (RdEvent.eintr :: evs) (len + 1) = read_all evs (len + 1)) ∧
    (∀ (evs : List RdEvent) (len : Nat),
      read_all (RdEvent.chunk [] :: evs) (len + 1) = none) ∧
    (∀ (evs : List RdEvent) (len : Nat),
      read_all (RdEvent.err :: evs) (len + 1) = none) := by
  refine ⟨write_all_length, fun evs len => ?_, fun evs len => ?_,
    fun evs len => ?_, read_all_length, fun evs len => ?_, fun evs len => ?_,
    fun evs len => ?_⟩
  · simp only [write_all]
  · simp [write_all]
  · simp only [write_all]
  · simp only [read_all]
  · simp [read_all]
  · simp only [read_all]

theorem C9_channel_all_or_nothing_witness :
    write_all [WrEvent.eintr, WrEvent.ok 2, WrEvent.ok 3] 5 = some 5 ∧
    (5 : Nat) = 5 ∧
    read_all [RdEvent.eintr, RdEvent.chunk [1, 2], RdEvent.chunk [3]] 3 =
      some [1, 2, 3] ∧
    ([1, 2, 3] : List Nat).length = 3 :=
  ⟨by decide,
   C9_channel_all_or_nothing.1 [WrEvent.eintr, WrEvent.ok 2, WrEvent.ok 3] 5 5
     (by decide),
   by decide,
   C9_channel_all_or_nothing.2.2.2.2.1
     [RdEvent.eintr, RdEvent.chunk [1, 2], RdEvent.chunk [3]] 3 [1, 2, 3]
     (by decide)⟩

/-- Claim C10: the message-type byte is read by one bare read() that is not
retried: any outcome other than exactly 1 byte — end-of-stream, an EINTR
interruption, or another error — breaks the session loop immediately even
though select reported the socket readable; by contrast, the payload reads
(read_all) retry transparently on EINTR. -/
theorem C10_bare_type_read (fbmem : List Nat) (width height stride fps : Nat)
    (s : Session) :
    tick fbmem width height stride fps (.dataReady .eof) s = .disc [] ∧
    tick fbmem width height stride fps (.dataReady .eintr) s = .disc [] ∧
    tick fbmem width height stride fps (.dataReady .err) s = .disc [] ∧
    (∀ (evs : List RdEvent) (len : Nat),
      read_all (RdEvent.eintr :: evs) (len + 1) = read_all evs (len + 1)) := by
  refine ⟨rfl, rfl, rfl, fun evs len => ?_⟩
  simp only [read_all]
